import Mathlib

/-!
Verification of the temporal entity-versioning engine of the FoodDiary
repository (`src/data/entities/entity_base.py`, `src/data/entities/diary_entry.py`).

The engine stores one columnar table per entity.  Every logical record is a
chain of immutable versions sharing an `InstanceId`; each version has its own
`Id`, a `CreatedDate`, and an `IsCurrent` flag.  We embed the engine shallowly:

* a polars row/record dict is an association list `List (String × Value)`;
  Python dict construction and `{**a, **b}` merging are `dictInsert`/`dictMerge`;
* the remote blob store holds at most one frame per table, modelled as
  `Option Frame` inside `EngineState`;
* `uuid` generation and `datetime.now` are modelled as counters in the state
  (`nextId`, `clock`): successive draws are distinct and strictly increasing,
  matching the generator contracts the code relies on;
* errors are `Except EngineError`; the Python code raises `ValueError` in the
  places the specification names `SchemaConflictError` / `InstanceNotFoundError`.
-/

namespace FoodDiary

/-- Polars column dtypes used by the entity schemas. -/
inductive DType where
  | utf8
  | datetimeUTC
  | boolean
deriving DecidableEq

/-- A cell value: strings, UTC timestamps (a logical microsecond tick),
booleans, or null for fields absent from a record dict. -/
inductive Value where
  | str (s : String)
  | dt (t : Nat)
  | bool (b : Bool)
  | null
deriving DecidableEq

/-- A table schema: ordered field name to dtype mapping (a Python dict). -/
abbrev Schema := List (String × DType)

/-- A record dict or materialized row: ordered field name to value mapping. -/
abbrev Dict := List (String × Value)

abbrev Row := Dict

/-- Keys of an association list, in order. -/
def keys {α : Type} (d : List (String × α)) : List String := d.map Prod.fst

/-- Python dict insertion: overwrite the value in place when the key exists,
append the pair otherwise. -/
def dictInsert {α : Type} (d : List (String × α)) (k : String) (v : α) :
    List (String × α) :=
  if d.any (fun p => p.1 == k) then
    d.map (fun p => if p.1 == k then (k, v) else p)
  else d ++ [(k, v)]

/-- Python `{**a, **b}`: start from `a`, insert each pair of `b` in order
(later keys override earlier ones). -/
def dictMerge {α : Type} (a b : List (String × α)) : List (String × α) :=
  b.foldl (fun acc p => dictInsert acc p.1 p.2) a

/-- Value bound to `k`, i.e. Python `d.get(k)`. -/
def dictLookup {α : Type} (d : List (String × α)) (k : String) : Option α :=
  (d.find? (fun p => p.1 == k)).map Prod.snd

/-- Column value of a row; `null` when the column is absent. -/
def getField (r : Row) (k : String) : Value := (dictLookup r k).getD Value.null

/-- Replace the value of column `k` (polars `with_columns(...alias(k))`). -/
def setField (r : Row) (k : String) (v : Value) : Row :=
  r.map (fun p => if p.1 == k then (k, v) else p)

/-- Error taxonomy of the specification.  The Python code raises `ValueError`
where the spec names `SchemaConflictError` and `InstanceNotFoundError`. -/
inductive EngineError where
  | schemaConflict (conflicts : List String)
  | instanceNotFound (instance_id : String)
deriving DecidableEq

/-- `EntityBase.REQUIRED_FIELDS`: the versioning fields every table carries. -/
def REQUIRED_FIELDS : Schema :=
  [("Id", DType.utf8), ("InstanceId", DType.utf8),
   ("CreatedDate", DType.datetimeUTC), ("IsCurrent", DType.boolean)]

def requiredKeys : List String := keys REQUIRED_FIELDS

/-- A table definition: entity name and the composed schema. -/
structure Entity where
  entity_name : String
  schema : Schema
deriving DecidableEq

/-- `EntityBase.__init__`: reject additional fields that reuse a reserved
versioning-field name (raising with the set of colliding names), otherwise
compose `{**REQUIRED_FIELDS, **additional}`.  Pure: performs no store I/O. -/
def EntityBase.init (entity_name : String) (additional : Schema) :
    Except EngineError Entity :=
  let reserved_conflicts :=
    ((keys additional).filter (fun k => requiredKeys.contains k)).dedup
  if reserved_conflicts.isEmpty then
    Except.ok ⟨entity_name, dictMerge REQUIRED_FIELDS additional⟩
  else
    Except.error (EngineError.schemaConflict reserved_conflicts)

/-- A materialized table: its schema and its rows in storage order. -/
structure Frame where
  schema : Schema
  rows : List Row
deriving DecidableEq

/-- The world the engine sees: the backing blob (`none` when the parquet file
does not exist), the uuid generator, and the clock. -/
structure EngineState where
  blob : Option Frame
  nextId : Nat
  clock : Nat
deriving DecidableEq

def emptyState : EngineState := ⟨none, 0, 0⟩

/-- The rows currently stored in the table (empty when the blob is absent). -/
def rowsOf (s : EngineState) : List Row :=
  match s.blob with
  | none => []
  | some fr => fr.rows

/-- The `n`-th identifier drawn from the uuid generator.  Distinct draws give
distinct strings, which is the only property the code relies on. -/
def uuidStr (n : Nat) : String := String.mk (List.replicate (n + 1) 'u')

/-- Modelled from the spec: the Columnar Codec (`pl.DataFrame([record],
schema=self.schema)`, whose implementation is outside this repository)
materializes a record dict into a row typed to the composed schema by looking
each *declared* column up in the dict: declared fields absent from the dict
become null, and dict keys outside the schema are never consulted — they are
silently dropped, so the stored row carries exactly the schema's columns
(matching "the engine builds the new Record purely from `data` plus the
versioning fields it generates"). -/
def buildRow (schema : Schema) (d : Dict) : Row :=
  schema.map (fun s => (s.1, (dictLookup d s.1).getD Value.null))

/-- `EntityBase.load_all`: empty frame typed to the declared schema when the
blob does not exist, the stored frame otherwise.  Reads only: the returned
state is the input state (no write is performed on either path). -/
def EntityBase.load_all (e : Entity) (s : EngineState) : Frame × EngineState :=
  match s.blob with
  | none => ({ schema := e.schema, rows := [] }, s)
  | some fr => (fr, s)

/-- `EntityBase.load_current`: `load_all` filtered to `IsCurrent == True`. -/
def EntityBase.load_current (e : Entity) (s : EngineState) : Frame × EngineState :=
  let fr := (EntityBase.load_all e s).1
  ({ schema := fr.schema,
     rows := fr.rows.filter (fun r => getField r "IsCurrent" == Value.bool true) },
   (EntityBase.load_all e s).2)

/-- The engine-generated versioning fields of a new version.  `create` and
`update` merge the caller's `data` dict on top of this base (Python
`{"Id": ..., "InstanceId": ..., "CreatedDate": ..., "IsCurrent": True, **data}`). -/
def versioningBase (new_id instance_id : String) (now : Nat) : Dict :=
  [("Id", Value.str new_id), ("InstanceId", Value.str instance_id),
   ("CreatedDate", Value.dt now), ("IsCurrent", Value.bool true)]

/-- `EntityBase.create`: build the record (engine fields, then `**data`
merged on top), materialize it, and append it to the table (creating the
blob when absent).  Returns the generated instance identifier. -/
def EntityBase.create (e : Entity) (s : EngineState) (data : Dict) :
    Except EngineError String × EngineState :=
  let instance_id := uuidStr s.nextId
  let record := dictMerge (versioningBase instance_id instance_id s.clock) data
  let row := buildRow e.schema record
  match s.blob with
  | some fr =>
    (Except.ok instance_id, ⟨some ⟨fr.schema, fr.rows ++ [row]⟩, s.nextId + 1, s.clock + 1⟩)
  | none =>
    (Except.ok instance_id, ⟨some ⟨e.schema, [row]⟩, s.nextId + 1, s.clock + 1⟩)

/-- The filter/flip predicate of `update`:
`(InstanceId == instance_id) & (IsCurrent == True)`. -/
def matchesCurrent (instance_id : String) (r : Row) : Bool :=
  (getField r "InstanceId" == Value.str instance_id) &&
    (getField r "IsCurrent" == Value.bool true)

/-- `EntityBase.update`: read the whole table, fail when no current version of
`instance_id` exists, otherwise flip every matching row's `IsCurrent` to
false, append one freshly built current version, and overwrite the blob. -/
def EntityBase.update (e : Entity) (s : EngineState) (instance_id : String)
    (data : Dict) : Except EngineError String × EngineState :=
  let all_data := (EntityBase.load_all e s).1
  let current := all_data.rows.filter (matchesCurrent instance_id)
  if current.length = 0 then
    (Except.error (EngineError.instanceNotFound instance_id), s)
  else
    let updated_rows := all_data.rows.map (fun r =>
      if matchesCurrent instance_id r then setField r "IsCurrent" (Value.bool false)
      else r)
    let new_id := uuidStr s.nextId
    let new_record := dictMerge (versioningBase new_id instance_id s.clock) data
    let row := buildRow e.schema new_record
    (Except.ok new_id,
     ⟨some ⟨all_data.schema, updated_rows ++ [row]⟩, s.nextId + 1, s.clock + 1⟩)

/-- Sort key of `get_instance_history`: the `CreatedDate` column. -/
def dateKey (r : Row) : Nat :=
  match getField r "CreatedDate" with
  | Value.dt t => t
  | _ => 0

def insertByDate (r : Row) : List Row → List Row
  | [] => [r]
  | x :: xs => if dateKey r ≤ dateKey x then r :: x :: xs else x :: insertByDate r xs

/-- Sort rows ascending by `CreatedDate` (insertion sort). -/
def sortByDate (l : List Row) : List Row := l.foldr insertByDate []

/-- `EntityBase.get_instance_history`: all versions of one instance, sorted
ascending by `CreatedDate`. -/
def EntityBase.get_instance_history (e : Entity) (s : EngineState)
    (instance_id : String) : List Row :=
  sortByDate (((EntityBase.load_all e s).1).rows.filter
    (fun r => getField r "InstanceId" == Value.str instance_id))

/-- One engine call of a single-writer trace. -/
inductive Op where
  | create (data : Dict)
  | update (instance_id : String) (data : Dict)

/-- The state after one call (a failed call leaves the blob as it was). -/
def runOp (e : Entity) (s : EngineState) : Op → EngineState
  | Op.create d => (EntityBase.create e s d).2
  | Op.update iid d => (EntityBase.update e s iid d).2

/-- The table state after a finite sequence of sequential calls, starting from
the table whose blob does not yet exist. -/
def run (e : Entity) (ops : List Op) : EngineState := ops.foldl (runOp e) emptyState

/-- A caller-supplied data dict that honours the entity contract: it never
supplies a versioning field. -/
abbrev ValidData (d : Dict) : Prop := ∀ p ∈ d, p.1 ∉ requiredKeys

/-- The caller-supplied data dict of a call. -/
abbrev Op.data : Op → Dict
  | Op.create d => d
  | Op.update _ d => d

/-- A call whose data dict honours the entity contract. -/
abbrev ValidOp (op : Op) : Prop := ValidData op.data

/-- The additional schema of `DiaryEntries` (`src/data/entities/diary_entry.py`). -/
def diary_additional : Schema :=
  [("UserId", DType.utf8), ("Food", DType.utf8),
   ("ConsumedAt", DType.datetimeUTC), ("Notes", DType.utf8)]

/-- The `DiaryEntries` table definition as `EntityBase.init` composes it. -/
def diaryEntity : Entity := ⟨"diary_entries", REQUIRED_FIELDS ++ diary_additional⟩

/-! ### Derived definitions used by the statements -/

/-- The record built by `create`/`update` (engine fields, `**data` on top). -/
def newVersionRow (e : Entity) (new_id instance_id : String) (now : Nat)
    (data : Dict) : Row :=
  buildRow e.schema (dictMerge (versioningBase new_id instance_id now) data)

/-- The `IsCurrent == True` test of `load_current`. -/
def isCurrentRow (r : Row) : Bool := getField r "IsCurrent" == Value.bool true

/-- Number of current rows carrying `InstanceId` value `v`. -/
def curCount (v : Value) (l : List Row) : Nat :=
  (l.filter (fun r => (getField r "InstanceId" == v) && isCurrentRow r)).length

/-- The distinct `InstanceId` values present in a table. -/
def instanceIds (l : List Row) : List Value :=
  (l.map (fun r => getField r "InstanceId")).dedup

/-- Well-formedness of a table populated through the engine: every stored
`InstanceId` is an identifier the generator already produced, and every
instance present has exactly one current version. -/
def WF (s : EngineState) : Prop :=
  (∀ r ∈ rowsOf s, ∃ n, n < s.nextId ∧
    getField r "InstanceId" = Value.str (uuidStr n)) ∧
  (∀ v, (∃ r ∈ rowsOf s, getField r "InstanceId" = v) →
    curCount v (rowsOf s) = 1)

/-! ### Dictionary lemmas -/

theorem uuidStr_injective : Function.Injective uuidStr := by
  intro a b h
  have h2 := congrArg String.data h
  simp only [uuidStr] at h2
  have h3 := congrArg List.length h2
  simpa using h3

theorem dictLookup_cons_of_eq {α : Type} {k : String} (p : String × α)
    (d : List (String × α)) (h : p.1 = k) : dictLookup (p :: d) k = some p.2 := by
  unfold dictLookup
  rw [List.find?_cons_of_pos _ (by simpa using h)]
  rfl

theorem dictLookup_cons_of_ne {α : Type} {k : String} (p : String × α)
    (d : List (String × α)) (h : ¬p.1 = k) : dictLookup (p :: d) k = dictLookup d k := by
  unfold dictLookup
  rw [List.find?_cons_of_neg _ (by simpa using h)]

theorem dictLookup_eq_none {α : Type} (d : List (String × α)) (k : String)
    (h : ∀ v, (k, v) ∉ d) : dictLookup d k = none := by
  unfold dictLookup
  rw [List.find?_eq_none.2]
  · rfl
  · intro p hp
    simp only [Bool.not_eq_true, beq_eq_false_iff_ne, ne_eq]
    intro hc
    exact h p.2 (by rcases p with ⟨k₁, v₁⟩; cases hc; exact hp)

theorem mem_keys {α : Type} {d : List (String × α)} {k : String} :
    k ∈ keys d ↔ ∃ v, (k, v) ∈ d := by
  constructor
  · intro h
    rcases List.mem_map.1 h with ⟨p, hp, rfl⟩
    exact ⟨p.2, hp⟩
  · rintro ⟨v, hv⟩
    exact List.mem_map.2 ⟨(k, v), hv, rfl⟩

theorem dictMerge_nil {α : Type} (a : List (String × α)) : dictMerge a [] = a := rfl

theorem dictMerge_cons {α : Type} (a : List (String × α)) (p : String × α)
    (b : List (String × α)) :
    dictMerge a (p :: b) = dictMerge (dictInsert a p.1 p.2) b := rfl

theorem dictLookup_map_overwrite {α : Type} (d : List (String × α)) (k k' : String)
    (v : α) (h : k' ≠ k) :
    dictLookup (d.map (fun p => if p.1 == k then (k, v) else p)) k' = dictLookup d k' := by
  induction d with
  | nil => rfl
  | cons p d ih =>
    rw [List.map_cons]
    by_cases hp : p.1 = k
    · rw [if_pos (by simpa using hp)]
      rw [dictLookup_cons_of_ne (k, v) _ (by simpa using Ne.symm h)]
      rw [dictLookup_cons_of_ne p d (by rw [hp]; exact fun hc => h (hc.symm))]
      exact ih
    · rw [if_neg (by simpa using hp)]
      by_cases hq : p.1 = k'
      · rw [dictLookup_cons_of_eq p _ hq, dictLookup_cons_of_eq p d hq]
      · rw [dictLookup_cons_of_ne p _ hq, dictLookup_cons_of_ne p d hq]
        exact ih

theorem dictLookup_append_left_none {α : Type} (d d' : List (String × α)) (k : String)
    (h : dictLookup d k = none) :
    dictLookup (d ++ d') k = dictLookup d' k := by
  induction d with
  | nil => rfl
  | cons p d ih =>
    by_cases hp : p.1 = k
    · rw [dictLookup_cons_of_eq p d hp] at h
      exact absurd h (by simp)
    · rw [dictLookup_cons_of_ne p d hp] at h
      rw [List.cons_append, dictLookup_cons_of_ne p _ hp]
      exact ih h

theorem dictLookup_append_single_ne {α : Type} (d : List (String × α)) (k k' : String)
    (v : α) (h : k' ≠ k) : dictLookup (d ++ [(k, v)]) k' = dictLookup d k' := by
  induction d with
  | nil => rw [List.nil_append, dictLookup_cons_of_ne (k, v) [] (fun hc => h hc.symm)]
  | cons p d ih =>
    by_cases hp : p.1 = k'
    · rw [List.cons_append, dictLookup_cons_of_eq p _ hp, dictLookup_cons_of_eq p d hp]
    · rw [List.cons_append, dictLookup_cons_of_ne p _ hp, dictLookup_cons_of_ne p d hp]
      exact ih

theorem dictLookup_dictInsert_ne {α : Type} (d : List (String × α)) (k k' : String)
    (v : α) (h : k' ≠ k) :
    dictLookup (dictInsert d k v) k' = dictLookup d k' := by
  unfold dictInsert
  split
  · exact dictLookup_map_overwrite d k k' v h
  · exact dictLookup_append_single_ne d k k' v h

theorem dictLookup_dictInsert_self {α : Type} (d : List (String × α)) (k : String)
    (v : α) : dictLookup (dictInsert d k v) k = some v := by
  unfold dictInsert
  split
  · rename_i hany
    induction d with
    | nil => simp at hany
    | cons p d ih =>
      rw [List.map_cons]
      by_cases hp : p.1 = k
      · rw [if_pos (by simpa using hp)]
        exact dictLookup_cons_of_eq (k, v) _ rfl
      · rw [if_neg (by simpa using hp)]
        rw [dictLookup_cons_of_ne p _ hp]
        refine ih ?_
        simp only [List.any_cons, Bool.or_eq_true] at hany
        rcases hany with hc | hc
        · exact absurd (by simpa using hc) hp
        · exact hc
  · rename_i hany
    have hnone : dictLookup d k = none := by
      refine dictLookup_eq_none d k ?_
      intro v' hv'
      exact hany (List.any_eq_true.2 ⟨(k, v'), hv', by simp⟩)
    rw [dictLookup_append_left_none _ _ _ hnone]
    exact dictLookup_cons_of_eq (k, v) [] rfl

theorem dictLookup_dictMerge_of_not_mem {α : Type} (a b : List (String × α))
    (k : String) (h : k ∉ keys b) :
    dictLookup (dictMerge a b) k = dictLookup a k := by
  induction b generalizing a with
  | nil => rfl
  | cons p b ih =>
    simp only [keys, List.map_cons, List.mem_cons, not_or] at h
    rw [dictMerge_cons, ih _ (by simpa [keys] using h.2)]
    exact dictLookup_dictInsert_ne a p.1 k p.2 h.1

theorem dictLookup_dictMerge_of_mem {α : Type} (a b : List (String × α))
    (k : String) (v : α) (hnod : (keys b).Nodup) (hm : (k, v) ∈ b) :
    dictLookup (dictMerge a b) k = some v := by
  induction b generalizing a with
  | nil => simp at hm
  | cons p b ih =>
    simp only [keys, List.map_cons, List.nodup_cons] at hnod
    rcases List.mem_cons.1 hm with h | h
    · subst h
      rw [dictMerge_cons]
      rw [dictLookup_dictMerge_of_not_mem _ _ _ (by simpa [keys] using hnod.1)]
      exact dictLookup_dictInsert_self a k v
    · exact ih (dictInsert a p.1 p.2) (by simpa [keys] using hnod.2) h

theorem keys_map_overwrite {α : Type} (d : List (String × α)) (k : String) (v : α) :
    keys (d.map (fun p => if p.1 == k then (k, v) else p)) = keys d := by
  induction d with
  | nil => rfl
  | cons p d ih =>
    rw [List.map_cons]
    by_cases hp : p.1 = k
    · rw [if_pos (by simpa using hp)]
      simp only [keys, List.map_cons] at *
      rw [ih, hp]
    · rw [if_neg (by simpa using hp)]
      simp only [keys, List.map_cons] at *
      rw [ih]

theorem dictInsert_of_not_mem {α : Type} (d : List (String × α)) (k : String)
    (v : α) (h : k ∉ keys d) : dictInsert d k v = d ++ [(k, v)] := by
  unfold dictInsert
  rw [if_neg]
  intro hc
  rcases List.any_eq_true.1 hc with ⟨p, hp, hpk⟩
  exact h (by
    rcases p with ⟨k₁, v₁⟩
    have : k₁ = k := by simpa using hpk
    subst this
    exact mem_keys.2 ⟨v₁, hp⟩)

theorem dictMerge_disjoint {α : Type} (a b : List (String × α))
    (hd : ∀ k ∈ keys b, k ∉ keys a) (hnod : (keys b).Nodup) :
    dictMerge a b = a ++ b := by
  induction b generalizing a with
  | nil => simp [dictMerge_nil]
  | cons p b ih =>
    have hnod' : (keys b).Nodup := (List.nodup_cons.1 hnod).2
    have hhead : p.1 ∉ keys b := (List.nodup_cons.1 hnod).1
    rw [dictMerge_cons,
      dictInsert_of_not_mem a p.1 p.2 (hd p.1 (List.mem_cons_self p.1 (keys b))),
      ih (a ++ [(p.1, p.2)]) ?_ hnod']
    · simp
    · intro k hk hc
      have hc' : k ∈ keys a ++ [p.1] := by
        simpa [keys] using hc
      rcases List.mem_append.1 hc' with hc'' | hc''
      · exact hd k (List.mem_cons_of_mem p.1 hk) hc''
      · have : k = p.1 := by simpa using hc''
        rw [this] at hk
        exact hhead hk

/-! ### Row, schema and codec lemmas -/

theorem getField_cons_of_eq {k : String} (p : String × Value) (r : Row)
    (h : p.1 = k) : getField (p :: r) k = p.2 := by
  unfold getField
  rw [dictLookup_cons_of_eq p r h]
  rfl

theorem getField_cons_of_ne {k : String} (p : String × Value) (r : Row)
    (h : ¬p.1 = k) : getField (p :: r) k = getField r k := by
  unfold getField
  rw [dictLookup_cons_of_ne p r h]

theorem getField_buildRow_mem (schema : Schema) (d : Dict) (k : String)
    (h : k ∈ keys schema) :
    getField (buildRow schema d) k = (dictLookup d k).getD Value.null := by
  induction schema with
  | nil => simp [keys] at h
  | cons p schema ih =>
    unfold buildRow
    rw [List.map_cons]
    by_cases hp : p.1 = k
    · rw [getField_cons_of_eq _ _ (show p.1 = k from hp), hp]
    · rw [getField_cons_of_ne _ _ (show ¬p.1 = k from hp)]
      have h' : k ∈ keys schema := by
        rcases List.mem_cons.1 h with hc | hc
        · exact absurd hc.symm hp
        · exact hc
      exact ih h'

theorem keys_buildRow (schema : Schema) (d : Dict) :
    keys (buildRow schema d) = keys schema := by
  induction schema with
  | nil => rfl
  | cons p schema ih =>
    unfold buildRow at *
    rw [List.map_cons]
    simp only [keys, List.map_cons] at *
    rw [ih]

theorem getField_setField_ne (r : Row) (k k' : String) (v : Value) (h : k' ≠ k) :
    getField (setField r k v) k' = getField r k' := by
  unfold setField getField
  rw [dictLookup_map_overwrite r k k' v h]

theorem getField_setField_self (r : Row) (k : String) (v : Value)
    (h : k ∈ keys r) : getField (setField r k v) k = v := by
  induction r with
  | nil => simp [keys] at h
  | cons p r ih =>
    unfold setField
    rw [List.map_cons]
    by_cases hp : p.1 = k
    · rw [if_pos (by simpa using hp)]
      exact getField_cons_of_eq (k, v) _ rfl
    · rw [if_neg (by simpa using hp)]
      rw [getField_cons_of_ne p _ hp]
      have h' : k ∈ keys r := by
        rcases List.mem_cons.1 h with hc | hc
        · exact absurd hc.symm hp
        · exact hc
      exact ih h'

theorem keys_setField (r : Row) (k : String) (v : Value) :
    keys (setField r k v) = keys r :=
  keys_map_overwrite r k v

theorem mem_keys_of_getField_ne_null (r : Row) (k : String)
    (h : getField r k ≠ Value.null) : k ∈ keys r := by
  by_contra hc
  have hnone : dictLookup r k = none :=
    dictLookup_eq_none r k (fun v hv => hc (mem_keys.2 ⟨v, hv⟩))
  rw [getField, hnone] at h
  exact h rfl

/-! ### Engine call specifications -/

theorem keys_versioningBase (a b : String) (t : Nat) :
    keys (versioningBase a b t) = requiredKeys := rfl

theorem dictLookup_versioningBase_Id (a b : String) (t : Nat) :
    dictLookup (versioningBase a b t) "Id" = some (Value.str a) := rfl

theorem dictLookup_versioningBase_InstanceId (a b : String) (t : Nat) :
    dictLookup (versioningBase a b t) "InstanceId" = some (Value.str b) := rfl

theorem dictLookup_versioningBase_CreatedDate (a b : String) (t : Nat) :
    dictLookup (versioningBase a b t) "CreatedDate" = some (Value.dt t) := rfl

theorem dictLookup_versioningBase_IsCurrent (a b : String) (t : Nat) :
    dictLookup (versioningBase a b t) "IsCurrent" = some (Value.bool true) := rfl

theorem ValidData.not_mem_keys {d : Dict} (h : ValidData d) {k : String}
    (hk : k ∈ requiredKeys) : k ∉ keys d := by
  intro hc
  rcases mem_keys.1 hc with ⟨v, hv⟩
  exact h (k, v) hv hk

theorem getField_newVersionRow_base (e : Entity) (new_id instance_id : String)
    (now : Nat) (data : Dict) (k : String) (hk : k ∈ keys e.schema)
    (hnd : k ∉ keys data) :
    getField (newVersionRow e new_id instance_id now data) k =
      (dictLookup (versioningBase new_id instance_id now) k).getD Value.null := by
  unfold newVersionRow
  rw [getField_buildRow_mem _ _ _ hk, dictLookup_dictMerge_of_not_mem _ _ _ hnd]

theorem load_all_rows (e : Entity) (s : EngineState) :
    ((EntityBase.load_all e s).1).rows = rowsOf s := by
  unfold EntityBase.load_all rowsOf
  cases s.blob <;> rfl

theorem load_all_state (e : Entity) (s : EngineState) :
    (EntityBase.load_all e s).2 = s := by
  unfold EntityBase.load_all
  cases s.blob <;> rfl

theorem create_spec (e : Entity) (s : EngineState) (data : Dict) :
    (EntityBase.create e s data).1 = Except.ok (uuidStr s.nextId) ∧
    rowsOf (EntityBase.create e s data).2 =
      rowsOf s ++ [newVersionRow e (uuidStr s.nextId) (uuidStr s.nextId) s.clock data] ∧
    (EntityBase.create e s data).2.nextId = s.nextId + 1 ∧
    (EntityBase.create e s data).2.clock = s.clock + 1 := by
  simp only [EntityBase.create]
  cases hb : s.blob with
  | none => simp [rowsOf, hb, newVersionRow]
  | some fr => simp [rowsOf, hb, newVersionRow]

theorem update_spec (e : Entity) (s : EngineState) (instance_id : String) (data : Dict)
    (hcur : ∃ r ∈ rowsOf s, matchesCurrent instance_id r = true) :
    (EntityBase.update e s instance_id data).1 = Except.ok (uuidStr s.nextId) ∧
    rowsOf (EntityBase.update e s instance_id data).2 =
      (rowsOf s).map (fun r =>
        if matchesCurrent instance_id r then setField r "IsCurrent" (Value.bool false)
        else r) ++ [newVersionRow e (uuidStr s.nextId) instance_id s.clock data] ∧
    (EntityBase.update e s instance_id data).2.nextId = s.nextId + 1 ∧
    (EntityBase.update e s instance_id data).2.clock = s.clock + 1 := by
  have hne : ¬(((EntityBase.load_all e s).1).rows.filter
      (matchesCurrent instance_id)).length = 0 := by
    rw [load_all_rows]
    rcases hcur with ⟨r, hr, hm⟩
    have hmem : r ∈ (rowsOf s).filter (matchesCurrent instance_id) :=
      List.mem_filter.2 ⟨hr, hm⟩
    have := List.length_pos_of_mem hmem
    omega
  simp only [EntityBase.update]
  rw [if_neg hne]
  refine ⟨rfl, ?_, rfl, rfl⟩
  simp only [rowsOf, load_all_rows, newVersionRow]

/-! ### Construction lemmas -/

theorem init_ok (entity_name : String) (additional : Schema)
    (hnod : (keys additional).Nodup)
    (hdisj : ∀ k ∈ keys additional, k ∉ requiredKeys) :
    EntityBase.init entity_name additional =
      Except.ok ⟨entity_name, REQUIRED_FIELDS ++ additional⟩ := by
  have hfilter : (keys additional).filter (fun k => requiredKeys.contains k) = [] := by
    rw [List.filter_eq_nil_iff]
    intro k hk
    simpa [List.contains, List.elem_iff] using hdisj k hk
  simp only [EntityBase.init]
  rw [hfilter]
  rw [if_pos (by simp)]
  rw [dictMerge_disjoint REQUIRED_FIELDS additional hdisj hnod]

theorem of_init_ok {entity_name : String} {additional : Schema} {e : Entity}
    (hnod : (keys additional).Nodup)
    (h : EntityBase.init entity_name additional = Except.ok e) :
    (∀ k ∈ keys additional, k ∉ requiredKeys) ∧
    e.schema = REQUIRED_FIELDS ++ additional ∧ e.entity_name = entity_name := by
  simp only [EntityBase.init] at h
  split at h
  · rename_i hempty
    have hdisj : ∀ k ∈ keys additional, k ∉ requiredKeys := by
      intro k hk hc
      have hkf : k ∈ ((keys additional).filter (fun k => requiredKeys.contains k)).dedup := by
        rw [List.mem_dedup]
        exact List.mem_filter.2 ⟨hk, by simpa [List.contains, List.elem_iff] using hc⟩
      rw [List.isEmpty_iff] at hempty
      rw [hempty] at hkf
      simp at hkf
    cases h
    exact ⟨hdisj, (by rw [dictMerge_disjoint REQUIRED_FIELDS additional hdisj hnod]), rfl⟩
  · exact Except.noConfusion h

theorem init_error (entity_name : String) (additional : Schema)
    (hconf : ∃ k ∈ keys additional, k ∈ requiredKeys) :
    EntityBase.init entity_name additional =
      Except.error (EngineError.schemaConflict
        (((keys additional).filter (fun k => requiredKeys.contains k)).dedup)) ∧
    ∀ k, k ∈ ((keys additional).filter (fun k => requiredKeys.contains k)).dedup ↔
      (k ∈ keys additional ∧ k ∈ requiredKeys) := by
  constructor
  · have hne : ¬(((keys additional).filter
        (fun k => requiredKeys.contains k)).dedup).isEmpty = true := by
      rcases hconf with ⟨k, hk, hr⟩
      have hkm : k ∈ ((keys additional).filter (fun k => requiredKeys.contains k)).dedup :=
        List.mem_dedup.2 (List.mem_filter.2
          ⟨hk, by simpa [List.contains, List.elem_iff] using hr⟩)
      intro hc
      rw [List.isEmpty_iff] at hc
      rw [hc] at hkm
      simp at hkm
    simp only [EntityBase.init]
    rw [if_neg hne]
  · intro k
    rw [List.mem_dedup, List.mem_filter]
    simp [List.contains, List.elem_iff]

/-! ### Path lemma for the failing call -/

theorem update_notfound_spec (e : Entity) (s : EngineState) (instance_id : String)
    (data : Dict)
    (h : ∀ r ∈ rowsOf s, matchesCurrent instance_id r = false) :
    EntityBase.update e s instance_id data =
      (Except.error (EngineError.instanceNotFound instance_id), s) := by
  have hzero : (((EntityBase.load_all e s).1).rows.filter
      (matchesCurrent instance_id)).length = 0 := by
    rw [load_all_rows, List.length_eq_zero, List.filter_eq_nil_iff]
    intro r hr
    simp [h r hr]
  simp only [EntityBase.update]
  rw [if_pos hzero]

/-! ### Field values of a freshly built version row -/

theorem getField_newVersionRow_Id (e : Entity) (a b : String) (t : Nat) (data : Dict)
    (hreq : ∀ k ∈ requiredKeys, k ∈ keys e.schema) (hv : ValidData data) :
    getField (newVersionRow e a b t data) "Id" = Value.str a := by
  rw [getField_newVersionRow_base e a b t data "Id" (hreq "Id" (by decide))
    (hv.not_mem_keys (by decide)), dictLookup_versioningBase_Id]
  rfl

theorem getField_newVersionRow_InstanceId (e : Entity) (a b : String) (t : Nat)
    (data : Dict)
    (hreq : ∀ k ∈ requiredKeys, k ∈ keys e.schema) (hv : ValidData data) :
    getField (newVersionRow e a b t data) "InstanceId" = Value.str b := by
  rw [getField_newVersionRow_base e a b t data "InstanceId" (hreq "InstanceId" (by decide))
    (hv.not_mem_keys (by decide)), dictLookup_versioningBase_InstanceId]
  rfl

theorem getField_newVersionRow_CreatedDate (e : Entity) (a b : String) (t : Nat)
    (data : Dict)
    (hreq : ∀ k ∈ requiredKeys, k ∈ keys e.schema) (hv : ValidData data) :
    getField (newVersionRow e a b t data) "CreatedDate" = Value.dt t := by
  rw [getField_newVersionRow_base e a b t data "CreatedDate" (hreq "CreatedDate" (by decide))
    (hv.not_mem_keys (by decide)), dictLookup_versioningBase_CreatedDate]
  rfl

theorem getField_newVersionRow_IsCurrent (e : Entity) (a b : String) (t : Nat)
    (data : Dict)
    (hreq : ∀ k ∈ requiredKeys, k ∈ keys e.schema) (hv : ValidData data) :
    getField (newVersionRow e a b t data) "IsCurrent" = Value.bool true := by
  rw [getField_newVersionRow_base e a b t data "IsCurrent" (hreq "IsCurrent" (by decide))
    (hv.not_mem_keys (by decide)), dictLookup_versioningBase_IsCurrent]
  rfl

theorem matchesCurrent_iff (instance_id : String) (r : Row) :
    matchesCurrent instance_id r = true ↔
      (getField r "InstanceId" = Value.str instance_id ∧
       getField r "IsCurrent" = Value.bool true) := by
  rw [matchesCurrent, Bool.and_eq_true]
  constructor
  · rintro ⟨h1, h2⟩
    exact ⟨eq_of_beq h1, eq_of_beq h2⟩
  · rintro ⟨h1, h2⟩
    exact ⟨by rw [h1]; exact beq_self_eq_true _, by rw [h2]; exact beq_self_eq_true _⟩

theorem matchesCurrent_newVersionRow (e : Entity) (a b : String) (t : Nat) (data : Dict)
    (hreq : ∀ k ∈ requiredKeys, k ∈ keys e.schema) (hv : ValidData data) :
    matchesCurrent b (newVersionRow e a b t data) = true :=
  (matchesCurrent_iff b _).2
    ⟨getField_newVersionRow_InstanceId e a b t data hreq hv,
     getField_newVersionRow_IsCurrent e a b t data hreq hv⟩

theorem flip_of_not_matches (instance_id : String) (r : Row)
    (h : matchesCurrent instance_id r = false) :
    (if matchesCurrent instance_id r then setField r "IsCurrent" (Value.bool false)
     else r) = r := by
  simp [h]

theorem isCurrent_mem_keys_of_matches (instance_id : String) (r : Row)
    (h : matchesCurrent instance_id r = true) : "IsCurrent" ∈ keys r := by
  have hcur : getField r "IsCurrent" = Value.bool true :=
    ((matchesCurrent_iff instance_id r).1 h).2
  exact mem_keys_of_getField_ne_null r "IsCurrent" (by rw [hcur]; exact fun hc => Value.noConfusion hc)

theorem getField_flipped_IsCurrent (instance_id : String) (r : Row)
    (h : matchesCurrent instance_id r = true) :
    getField (setField r "IsCurrent" (Value.bool false)) "IsCurrent" = Value.bool false :=
  getField_setField_self r "IsCurrent" (Value.bool false)
    (isCurrent_mem_keys_of_matches instance_id r h)

theorem getField_flipped_other (r : Row) (k : String) (h : k ≠ "IsCurrent") :
    getField (setField r "IsCurrent" (Value.bool false)) k = getField r k :=
  getField_setField_ne r "IsCurrent" k (Value.bool false) h

theorem map_noop {α : Type} (f : α → α) (l : List α) (h : ∀ x ∈ l, f x = x) :
    l.map f = l := by
  induction l with
  | nil => rfl
  | cons x l ih =>
    rw [List.map_cons, h x (List.mem_cons_self x l),
      ih (fun y hy => h y (List.mem_cons_of_mem x hy))]

theorem matchesCurrent_eq_false_of_ne (instance_id : String) (r : Row)
    (h : getField r "InstanceId" ≠ Value.str instance_id) :
    matchesCurrent instance_id r = false := by
  rw [matchesCurrent]
  simp [beq_eq_false_iff_ne.2 h]

theorem matchesCurrent_flipped (instance_id : String) (r : Row)
    (h : matchesCurrent instance_id r = true) :
    matchesCurrent instance_id (setField r "IsCurrent" (Value.bool false)) = false := by
  rw [matchesCurrent, getField_flipped_IsCurrent instance_id r h]
  simp

theorem dateKey_eq_of_getField (r : Row) (t : Nat)
    (h : getField r "CreatedDate" = Value.dt t) : dateKey r = t := by
  unfold dateKey
  rw [h]

theorem dateKey_newVersionRow (e : Entity) (a b : String) (t : Nat) (data : Dict)
    (hreq : ∀ k ∈ requiredKeys, k ∈ keys e.schema) (hv : ValidData data) :
    dateKey (newVersionRow e a b t data) = t :=
  dateKey_eq_of_getField _ t (getField_newVersionRow_CreatedDate e a b t data hreq hv)

theorem dateKey_setField_IsCurrent (r : Row) (v : Value) :
    dateKey (setField r "IsCurrent" v) = dateKey r := by
  unfold dateKey
  rw [getField_setField_ne r "IsCurrent" "CreatedDate" v (by decide)]

theorem sortByDate_three (a b c : Row) (h1 : dateKey a ≤ dateKey b)
    (h2 : dateKey b ≤ dateKey c) : sortByDate [a, b, c] = [a, b, c] := by
  have hc : insertByDate c [] = [c] := rfl
  have hb : insertByDate b [c] = [b, c] := by
    unfold insertByDate
    rw [if_pos h2]
  have ha : insertByDate a [b, c] = [a, b, c] := by
    unfold insertByDate
    rw [if_pos h1]
  show insertByDate a (insertByDate b (insertByDate c [])) = [a, b, c]
  rw [hc, hb, ha]

/-! ### Counting current versions -/

theorem pred_eq_matches (instance_id : String) (r : Row) :
    ((getField r "InstanceId" == Value.str instance_id) && isCurrentRow r) =
      matchesCurrent instance_id r := rfl

theorem curCount_cons (v : Value) (r : Row) (l : List Row) :
    curCount v (r :: l) =
      (if (getField r "InstanceId" == v) && isCurrentRow r then 1 else 0) +
        curCount v l := by
  unfold curCount
  rw [List.filter_cons]
  split
  · rw [List.length_cons]
    omega
  · omega

theorem curCount_append (v : Value) (l1 l2 : List Row) :
    curCount v (l1 ++ l2) = curCount v l1 + curCount v l2 := by
  unfold curCount
  rw [List.filter_append, List.length_append]

theorem curCount_eq_zero (v : Value) (l : List Row)
    (h : ∀ r ∈ l, getField r "InstanceId" ≠ v) : curCount v l = 0 := by
  unfold curCount
  rw [List.length_eq_zero, List.filter_eq_nil_iff]
  intro r hr
  simp [beq_eq_false_iff_ne.2 (h r hr)]

theorem getField_flip_InstanceId (instance_id : String) (r : Row) :
    getField (if matchesCurrent instance_id r
      then setField r "IsCurrent" (Value.bool false) else r) "InstanceId" =
      getField r "InstanceId" := by
  split
  · exact getField_setField_ne r "IsCurrent" "InstanceId" _ (by decide)
  · rfl

theorem curCount_map_flip_self (instance_id : String) (l : List Row) :
    curCount (Value.str instance_id) (l.map (fun r =>
      if matchesCurrent instance_id r then setField r "IsCurrent" (Value.bool false)
      else r)) = 0 := by
  induction l with
  | nil => rfl
  | cons r l ih =>
    rw [List.map_cons, curCount_cons, ih]
    by_cases hm : matchesCurrent instance_id r = true
    · rw [if_pos hm]
      have hcur : isCurrentRow (setField r "IsCurrent" (Value.bool false)) = false := by
        rw [isCurrentRow, getField_flipped_IsCurrent _ _ hm]
        rfl
      simp [hcur]
    · have hm' : matchesCurrent instance_id r = false := Bool.eq_false_iff.2 hm
      rw [flip_of_not_matches _ _ hm']
      rw [pred_eq_matches, hm']
      simp

theorem curCount_map_flip_ne (instance_id : String) (v : Value) (l : List Row)
    (hv : v ≠ Value.str instance_id) :
    curCount v (l.map (fun r =>
      if matchesCurrent instance_id r then setField r "IsCurrent" (Value.bool false)
      else r)) = curCount v l := by
  induction l with
  | nil => rfl
  | cons r l ih =>
    rw [List.map_cons, curCount_cons, curCount_cons, ih]
    by_cases hm : matchesCurrent instance_id r = true
    · obtain ⟨hinst, hcur⟩ := (matchesCurrent_iff instance_id r).1 hm
      have hrne : getField r "InstanceId" ≠ v := by
        rw [hinst]
        exact fun hc => hv hc.symm
      have hfne : getField (if matchesCurrent instance_id r
          then setField r "IsCurrent" (Value.bool false) else r) "InstanceId" ≠ v := by
        rw [getField_flip_InstanceId]
        exact hrne
      rw [if_pos hm] at hfne
      simp [beq_eq_false_iff_ne.2 hrne, beq_eq_false_iff_ne.2 hfne, if_pos hm]
    · rw [flip_of_not_matches _ _ (Bool.eq_false_iff.2 hm)]

theorem count_map_inst (v : Value) (l : List Row) :
    (l.map (fun r => getField r "InstanceId")).count v =
      (l.filter (fun r => getField r "InstanceId" == v)).length := by
  induction l with
  | nil => rfl
  | cons r l ih =>
    rw [List.map_cons, List.count_cons, List.filter_cons, ih]
    by_cases h : getField r "InstanceId" = v
    · rw [if_pos (by rw [h]; exact beq_self_eq_true v),
        if_pos (by rw [h]; exact beq_self_eq_true v), List.length_cons]
    · rw [if_neg (by simpa using h), if_neg (by simpa using h)]
      omega

/-! ### The single-current invariant is preserved by every call -/

theorem WF_create (e : Entity) (s : EngineState) (data : Dict)
    (hreq : ∀ k ∈ requiredKeys, k ∈ keys e.schema)
    (hv : ValidData data) (hwf : WF s) : WF (EntityBase.create e s data).2 := by
  obtain ⟨h1, h2, h3, h4⟩ := create_spec e s data
  · have hnew_inst : getField (newVersionRow e (uuidStr s.nextId) (uuidStr s.nextId)
        s.clock data) "InstanceId" = Value.str (uuidStr s.nextId) :=
      getField_newVersionRow_InstanceId e _ _ _ data hreq hv
    have hnew_cur : isCurrentRow (newVersionRow e (uuidStr s.nextId) (uuidStr s.nextId)
        s.clock data) = true := by
      rw [isCurrentRow, getField_newVersionRow_IsCurrent e _ _ _ data hreq hv]
      rfl
    constructor
    · intro r hr
      rw [h2] at hr
      rcases List.mem_append.1 hr with hr' | hr'
      · rcases hwf.1 r hr' with ⟨n, hn, hinst⟩
        exact ⟨n, by rw [h3]; omega, hinst⟩
      · have hr'' := List.mem_singleton.1 hr'
        subst hr''
        exact ⟨s.nextId, by rw [h3]; omega, hnew_inst⟩
    · intro v hpres
      rw [h2] at hpres ⊢
      rw [curCount_append]
      by_cases hveq : v = Value.str (uuidStr s.nextId)
      · subst hveq
        have hz : curCount (Value.str (uuidStr s.nextId)) (rowsOf s) = 0 := by
          apply curCount_eq_zero
          intro r hr hc
          rcases hwf.1 r hr with ⟨n, hn, hinst⟩
          rw [hinst] at hc
          have := uuidStr_injective (Value.str.inj hc)
          omega
        rw [hz, curCount_cons]
        rw [if_pos (by rw [hnew_inst]; simp [hnew_cur])]
        rfl
      · have hz : curCount v [newVersionRow e (uuidStr s.nextId) (uuidStr s.nextId)
            s.clock data] = 0 := by
          apply curCount_eq_zero
          intro r hr
          have := List.mem_singleton.1 hr
          subst this
          rw [hnew_inst]
          exact fun hc => hveq hc.symm
        have hpres' : ∃ r ∈ rowsOf s, getField r "InstanceId" = v := by
          rcases hpres with ⟨r, hr, hinst⟩
          rcases List.mem_append.1 hr with hr' | hr'
          · exact ⟨r, hr', hinst⟩
          · exfalso
            have := List.mem_singleton.1 hr'
            subst this
            rw [hnew_inst] at hinst
            exact hveq hinst.symm
        rw [hz, hwf.2 v hpres']

theorem WF_update (e : Entity) (s : EngineState) (instance_id : String) (data : Dict)
    (hreq : ∀ k ∈ requiredKeys, k ∈ keys e.schema)
    (hv : ValidData data) (hwf : WF s) :
    WF (EntityBase.update e s instance_id data).2 := by
  by_cases hcur : ∃ r ∈ rowsOf s, matchesCurrent instance_id r = true
  case neg =>
    have hall : ∀ r ∈ rowsOf s, matchesCurrent instance_id r = false := by
      intro r hr
      rcases Bool.eq_false_or_eq_true (matchesCurrent instance_id r) with h' | h'
      · exact absurd ⟨r, hr, h'⟩ hcur
      · exact h'
    rw [update_notfound_spec e s instance_id data hall]
    exact hwf
  case pos =>
    obtain ⟨h1, h2, h3, h4⟩ := update_spec e s instance_id data hcur
    · have hnew_inst : getField (newVersionRow e (uuidStr s.nextId) instance_id
          s.clock data) "InstanceId" = Value.str instance_id :=
        getField_newVersionRow_InstanceId e _ _ _ data hreq hv
      have hnew_cur : isCurrentRow (newVersionRow e (uuidStr s.nextId) instance_id
          s.clock data) = true := by
        rw [isCurrentRow, getField_newVersionRow_IsCurrent e _ _ _ data hreq hv]
        rfl
      obtain ⟨rc, hrc, hmc⟩ := hcur
      obtain ⟨hrcinst, _⟩ := (matchesCurrent_iff instance_id rc).1 hmc
      rcases hwf.1 rc hrc with ⟨n₀, hn₀, hrcinst'⟩
      have hiid : instance_id = uuidStr n₀ :=
        Value.str.inj (hrcinst ▸ hrcinst')
      constructor
      · intro r hr
        rw [h2] at hr
        rcases List.mem_append.1 hr with hr' | hr'
        · rcases List.mem_map.1 hr' with ⟨r₀, hr₀, hflip⟩
          rcases hwf.1 r₀ hr₀ with ⟨n, hn, hinst⟩
          refine ⟨n, by rw [h3]; omega, ?_⟩
          rw [← hflip, getField_flip_InstanceId]
          exact hinst
        · have := List.mem_singleton.1 hr'
          subst this
          refine ⟨n₀, by rw [h3]; omega, ?_⟩
          rw [hnew_inst, hiid]
      · intro v hpres
        rw [h2] at hpres ⊢
        rw [curCount_append]
        by_cases hveq : v = Value.str instance_id
        · subst hveq
          rw [curCount_map_flip_self, curCount_cons]
          rw [if_pos (by rw [hnew_inst]; simp [hnew_cur])]
          rfl
        · rw [curCount_map_flip_ne _ _ _ hveq]
          have hz : curCount v [newVersionRow e (uuidStr s.nextId) instance_id
              s.clock data] = 0 := by
            apply curCount_eq_zero
            intro r hr
            have := List.mem_singleton.1 hr
            subst this
            rw [hnew_inst]
            exact fun hc => hveq hc.symm
          have hpres' : ∃ r ∈ rowsOf s, getField r "InstanceId" = v := by
            rcases hpres with ⟨r, hr, hinst⟩
            rcases List.mem_append.1 hr with hr' | hr'
            · rcases List.mem_map.1 hr' with ⟨r₀, hr₀, hflip⟩
              refine ⟨r₀, hr₀, ?_⟩
              rw [← hinst, ← hflip, getField_flip_InstanceId]
            · exfalso
              have := List.mem_singleton.1 hr'
              subst this
              rw [hnew_inst] at hinst
              exact hveq hinst.symm
          rw [hz, hwf.2 v hpres']

theorem WF_runOp (e : Entity)
    (hreq : ∀ k ∈ requiredKeys, k ∈ keys e.schema) (s : EngineState) (op : Op)
    (hv : ValidOp op) (hwf : WF s) : WF (runOp e s op) := by
  cases op with
  | create d => exact WF_create e s d hreq hv hwf
  | update iid d => exact WF_update e s iid d hreq hv hwf

theorem WF_emptyState : WF emptyState := by
  constructor
  · intro r hr
    simp [rowsOf, emptyState] at hr
  · rintro v ⟨r, hr, _⟩
    simp [rowsOf, emptyState] at hr

theorem WF_run (e : Entity) (hreq : ∀ k ∈ requiredKeys, k ∈ keys e.schema)
    (ops : List Op) (hv : ∀ op ∈ ops, ValidOp op) : WF (run e ops) := by
  have hgen : ∀ (l : List Op), (∀ op ∈ l, ValidOp op) → ∀ s, WF s →
      WF (l.foldl (runOp e) s) := by
    intro l
    induction l with
    | nil => exact fun _ s hs => hs
    | cons op l ih =>
      intro hvl s hs
      exact ih (fun o ho => hvl o (List.mem_cons_of_mem _ ho)) _
        (WF_runOp e hreq s op (hvl op (List.mem_cons_self _ _)) hs)
  exact hgen ops hv emptyState WF_emptyState

theorem curCount_le_one_of_WF (s : EngineState) (hwf : WF s) (v : Value) :
    curCount v (rowsOf s) ≤ 1 := by
  by_cases hpres : ∃ r ∈ rowsOf s, getField r "InstanceId" = v
  · rw [hwf.2 v hpres]
  · have hz : curCount v (rowsOf s) = 0 :=
      curCount_eq_zero v _ (fun r hr hc => hpres ⟨r, hr, hc⟩)
    omega

theorem load_current_rows (e : Entity) (s : EngineState) :
    ((EntityBase.load_current e s).1).rows = (rowsOf s).filter isCurrentRow := by
  show ((EntityBase.load_all e s).1).rows.filter
    (fun r => getField r "IsCurrent" == Value.bool true) = (rowsOf s).filter isCurrentRow
  rw [load_all_rows]
  rfl

theorem nodup_currents_inst (s : EngineState) (hwf : WF s) :
    (((rowsOf s).filter isCurrentRow).map (fun r => getField r "InstanceId")).Nodup := by
  rw [List.nodup_iff_count_le_one]
  intro v
  rw [count_map_inst, List.filter_filter]
  exact curCount_le_one_of_WF s hwf v

theorem mem_currents_inst_iff (s : EngineState) (hwf : WF s) (v : Value) :
    v ∈ ((rowsOf s).filter isCurrentRow).map (fun r => getField r "InstanceId") ↔
      v ∈ instanceIds (rowsOf s) := by
  rw [instanceIds, List.mem_dedup]
  constructor
  · intro h
    rcases List.mem_map.1 h with ⟨r, hr, hinst⟩
    exact List.mem_map.2 ⟨r, (List.mem_filter.1 hr).1, hinst⟩
  · intro h
    rcases List.mem_map.1 h with ⟨r, hr, hinst⟩
    have hcount := hwf.2 v ⟨r, hr, hinst⟩
    have hne : (rowsOf s).filter
        (fun r => (getField r "InstanceId" == v) && isCurrentRow r) ≠ [] := by
      intro hc
      unfold curCount at hcount
      rw [hc] at hcount
      exact Nat.noConfusion hcount
    obtain ⟨r', hr'⟩ := List.exists_mem_of_ne_nil _ hne
    have hsp := List.mem_filter.1 hr'
    have hb := hsp.2
    rw [Bool.and_eq_true] at hb
    rcases hb with ⟨hb1, hb2⟩
    exact List.mem_map.2 ⟨r', List.mem_filter.2 ⟨hsp.1, hb2⟩, eq_of_beq hb1⟩

theorem current_length_eq (s : EngineState) (hwf : WF s) :
    ((rowsOf s).filter isCurrentRow).length = (instanceIds (rowsOf s)).length := by
  have hperm : List.Perm (((rowsOf s).filter isCurrentRow).map
      (fun r => getField r "InstanceId")) (instanceIds (rowsOf s)) :=
    (List.perm_ext_iff_of_nodup (nodup_currents_inst s hwf)
      (List.nodup_dedup _)).2 (mem_currents_inst_iff s hwf)
  have hlen := hperm.length_eq
  rw [List.length_map] at hlen
  exact hlen

/-! ### Claims -/

/-- C1: the claim says a caller-supplied versioning field (Id, InstanceId,
CreatedDate, IsCurrent) is rejected or overwritten by the engine.  The code
does the opposite: `create` builds the record as `{"Id": ..., "InstanceId": ...,
"CreatedDate": ..., "IsCurrent": True, **data}`, and the trailing `**data`
overrides the engine-generated values.  Concretely, creating with
`data = {"InstanceId": "evil"}` stores a record whose `InstanceId` is `"evil"`
while `create` still returns the engine-generated identifier — contradicting
the method's own docstring ("Returns: The InstanceId of the created record"). -/
theorem C1_caller_versioning_field_wins :
    (EntityBase.create diaryEntity emptyState [("InstanceId", Value.str "evil")]).1 =
      Except.ok (uuidStr 0) ∧
    getField ((rowsOf (EntityBase.create diaryEntity emptyState
        [("InstanceId", Value.str "evil")]).2).headD []) "InstanceId" =
      Value.str "evil" ∧
    Value.str "evil" ≠ Value.str (uuidStr 0) := by
  exact ⟨rfl, by decide, by decide⟩

/-- C6: for every table state and every instanceId with no current record,
`update` fails with `InstanceNotFoundError` (the Python code's `ValueError`)
and returns before any write: the stored table is byte-for-byte unchanged. -/
theorem C6_update_without_current_fails (e : Entity) (s : EngineState)
    (instance_id : String) (data : Dict)
    (h : ∀ r ∈ rowsOf s, ¬(getField r "InstanceId" = Value.str instance_id ∧
      getField r "IsCurrent" = Value.bool true)) :
    (EntityBase.update e s instance_id data).1 =
      Except.error (EngineError.instanceNotFound instance_id) ∧
    (EntityBase.update e s instance_id data).2 = s := by
  have h' : ∀ r ∈ rowsOf s, matchesCurrent instance_id r = false := by
    intro r hr
    rw [matchesCurrent]
    rcases not_and_or.mp (h r hr) with hA | hB
    · simp [beq_eq_false_iff_ne.2 hA]
    · simp [beq_eq_false_iff_ne.2 hB]
  rw [update_notfound_spec e s instance_id data h']
  exact ⟨rfl, rfl⟩

/-- Witness for C6 at a concrete input: updating `"does-not-exist"` on the
empty diary table fails with `InstanceNotFoundError` and leaves the state
unchanged. -/
theorem C6_update_without_current_fails_witness :
    (∀ r ∈ rowsOf emptyState, ¬(getField r "InstanceId" = Value.str "does-not-exist" ∧
      getField r "IsCurrent" = Value.bool true)) ∧
    ((EntityBase.update diaryEntity emptyState "does-not-exist"
        [("Notes", Value.str "x")]).1 =
      Except.error (EngineError.instanceNotFound "does-not-exist") ∧
    (EntityBase.update diaryEntity emptyState "does-not-exist"
        [("Notes", Value.str "x")]).2 = emptyState) :=
  ⟨by decide, C6_update_without_current_fails diaryEntity emptyState "does-not-exist"
    [("Notes", Value.str "x")] (by decide)⟩

/-- C7: table construction rejects an additional-fields mapping sharing a key
with the versioning fields, raising `SchemaConflictError` (Python's
`ValueError`) carrying exactly the colliding keys; with no collision it
succeeds with the composed schema (required fields first, then additional).
The check is part of `EntityBase.init`, a pure computation performed once at
table-definition time, before any store I/O. -/
theorem C7_schema_conflict_validation (entity_name : String) (additional : Schema)
    (hnod : (keys additional).Nodup) :
    ((∃ k ∈ keys additional, k ∈ requiredKeys) →
      ∃ conflicts, EntityBase.init entity_name additional =
          Except.error (EngineError.schemaConflict conflicts) ∧
        ∀ k, k ∈ conflicts ↔ (k ∈ keys additional ∧ k ∈ requiredKeys)) ∧
    ((∀ k ∈ keys additional, k ∉ requiredKeys) →
      EntityBase.init entity_name additional =
        Except.ok ⟨entity_name, REQUIRED_FIELDS ++ additional⟩) := by
  constructor
  · intro hconf
    exact ⟨_, (init_error entity_name additional hconf).1,
      (init_error entity_name additional hconf).2⟩
  · intro hdisj
    exact init_ok entity_name additional hnod hdisj

/-- Witness for C7 at concrete inputs: an additional schema reusing `"Id"`
is rejected with exactly that colliding key reported, and the diary entity's
additional schema composes successfully. -/
theorem C7_schema_conflict_validation_witness :
    ((keys [("Id", DType.utf8), ("Notes", DType.utf8)]).Nodup ∧
      ∃ conflicts, EntityBase.init "bad_entity" [("Id", DType.utf8), ("Notes", DType.utf8)] =
          Except.error (EngineError.schemaConflict conflicts) ∧
        ∀ k, k ∈ conflicts ↔
          (k ∈ keys [("Id", DType.utf8), ("Notes", DType.utf8)] ∧ k ∈ requiredKeys)) ∧
    EntityBase.init "diary_entries" diary_additional =
      Except.ok ⟨"diary_entries", REQUIRED_FIELDS ++ diary_additional⟩ :=
  ⟨⟨by decide, (C7_schema_conflict_validation "bad_entity"
      [("Id", DType.utf8), ("Notes", DType.utf8)] (by decide)).1
      ⟨"Id", by decide, by decide⟩⟩,
   (C7_schema_conflict_validation "diary_entries" diary_additional (by decide)).2
     (by decide)⟩

/-- C9: on a table whose backing blob does not exist, `load_all` and
`load_current` both return an empty frame typed to the declared composed
schema, raise no error, and perform no write — the state (hence the blob)
is untouched, so the blob is not created as a side effect. -/
theorem C9_missing_blob_reads_empty (e : Entity) (s : EngineState)
    (h : s.blob = none) :
    (EntityBase.load_all e s).1 = ⟨e.schema, []⟩ ∧
    (EntityBase.load_current e s).1 = ⟨e.schema, []⟩ ∧
    (EntityBase.load_all e s).2 = s ∧
    (EntityBase.load_current e s).2 = s := by
  unfold EntityBase.load_current EntityBase.load_all
  rw [h]
  exact ⟨rfl, rfl, rfl, rfl⟩

/-- Witness for C9 at a concrete input: the fresh diary table. -/
theorem C9_missing_blob_reads_empty_witness :
    emptyState.blob = none ∧
    ((EntityBase.load_all diaryEntity emptyState).1 = ⟨diaryEntity.schema, []⟩ ∧
     (EntityBase.load_current diaryEntity emptyState).1 = ⟨diaryEntity.schema, []⟩ ∧
     (EntityBase.load_all diaryEntity emptyState).2 = emptyState ∧
     (EntityBase.load_current diaryEntity emptyState).2 = emptyState) :=
  ⟨rfl, C9_missing_blob_reads_empty diaryEntity emptyState rfl⟩

/-- C10 counterexample: the claim says `create(data)` with a key outside the
composed schema fails before any store write, leaving the table unchanged.
It does not: the codec consults only the schema's keys, so creating a diary
entry with the undeclared key `"FoodId"` (the input the repository's own
`function_app.py` debug endpoint sends) succeeds and writes to the blob. -/
theorem C10_extra_field_error_counterexample :
    (EntityBase.create diaryEntity emptyState [("FoodId", Value.str "food-456")]).1 =
      Except.ok (uuidStr 0) ∧
    (EntityBase.create diaryEntity emptyState
      [("FoodId", Value.str "food-456")]).2.blob ≠ emptyState.blob :=
  ⟨rfl, by decide⟩

/-- C10 (amended): a data mapping containing a key outside the composed schema
does not make `create` or `update` fail. `create` succeeds and writes a new
record; `update` succeeds whenever a current version of the instance exists.
The undeclared key is silently dropped: the stored record's columns are
exactly the composed schema's, so the key is absent from the written row
(polars builds the frame by looking up each declared column in the record
dict and never consults other dict keys). -/
theorem C10_extra_field_silently_dropped (e : Entity) (s : EngineState)
    (instance_id : String) (data : Dict) (k : String)
    (hk : k ∉ keys e.schema) (hkd : k ∈ keys data) :
    (EntityBase.create e s data).1 = Except.ok (uuidStr s.nextId) ∧
    rowsOf (EntityBase.create e s data).2 =
      rowsOf s ++ [newVersionRow e (uuidStr s.nextId) (uuidStr s.nextId) s.clock data] ∧
    k ∉ keys (newVersionRow e (uuidStr s.nextId) (uuidStr s.nextId) s.clock data) ∧
    ((∃ r ∈ rowsOf s, matchesCurrent instance_id r = true) →
      (EntityBase.update e s instance_id data).1 = Except.ok (uuidStr s.nextId) ∧
      k ∉ keys (newVersionRow e (uuidStr s.nextId) instance_id s.clock data)) := by
  obtain ⟨h1, h2, _, _⟩ := create_spec e s data
  refine ⟨h1, h2, ?_, ?_⟩
  · unfold newVersionRow
    rw [keys_buildRow]
    exact hk
  · intro hcur
    obtain ⟨hu1, _, _, _⟩ := update_spec e s instance_id data hcur
    refine ⟨hu1, ?_⟩
    unfold newVersionRow
    rw [keys_buildRow]
    exact hk

/-- Witness for the amended C10 at a concrete input: the debug endpoint's
data with the undeclared key `"FoodId"` is created on the fresh diary table;
the call succeeds and the stored row has no `"FoodId"` column. -/
theorem C10_extra_field_silently_dropped_witness :
    ("FoodId" ∉ keys diaryEntity.schema ∧
     "FoodId" ∈ keys [("UserId", Value.str "user-123"),
       ("FoodId", Value.str "food-456"), ("ConsumedAt", Value.dt 0),
       ("Notes", Value.str "Breakfast")]) ∧
    ((EntityBase.create diaryEntity emptyState [("UserId", Value.str "user-123"),
        ("FoodId", Value.str "food-456"), ("ConsumedAt", Value.dt 0),
        ("Notes", Value.str "Breakfast")]).1 = Except.ok (uuidStr 0) ∧
     rowsOf (EntityBase.create diaryEntity emptyState [("UserId", Value.str "user-123"),
        ("FoodId", Value.str "food-456"), ("ConsumedAt", Value.dt 0),
        ("Notes", Value.str "Breakfast")]).2 =
       rowsOf emptyState ++ [newVersionRow diaryEntity (uuidStr 0) (uuidStr 0) 0
        [("UserId", Value.str "user-123"), ("FoodId", Value.str "food-456"),
         ("ConsumedAt", Value.dt 0), ("Notes", Value.str "Breakfast")]] ∧
     "FoodId" ∉ keys (newVersionRow diaryEntity (uuidStr 0) (uuidStr 0) 0
        [("UserId", Value.str "user-123"), ("FoodId", Value.str "food-456"),
         ("ConsumedAt", Value.dt 0), ("Notes", Value.str "Breakfast")]) ∧
     ((∃ r ∈ rowsOf emptyState, matchesCurrent "x" r = true) →
       (EntityBase.update diaryEntity emptyState "x" [("UserId", Value.str "user-123"),
         ("FoodId", Value.str "food-456"), ("ConsumedAt", Value.dt 0),
         ("Notes", Value.str "Breakfast")]).1 = Except.ok (uuidStr 0) ∧
       "FoodId" ∉ keys (newVersionRow diaryEntity (uuidStr 0) "x" 0
        [("UserId", Value.str "user-123"), ("FoodId", Value.str "food-456"),
         ("ConsumedAt", Value.dt 0), ("Notes", Value.str "Breakfast")]))) :=
  ⟨⟨by decide, by decide⟩,
   C10_extra_field_silently_dropped diaryEntity emptyState "x"
     [("UserId", Value.str "user-123"), ("FoodId", Value.str "food-456"),
      ("ConsumedAt", Value.dt 0), ("Notes", Value.str "Breakfast")] "FoodId"
     (by decide) (by decide)⟩

/-- C3: for every table state and every successful `update(instanceId, data)`
(with well-formed caller data), the new table is the old one transformed so
that every record matching `(InstanceId == instanceId) AND (IsCurrent ==
true)` — all of them, even several — has `IsCurrent` set false, every other
record is unchanged in every field, and exactly one new record is appended;
that record is current and carries the instance's identifier.  No ambiguity
error is raised when several records match: the hypothesis only requires at
least one match. -/
theorem C3_update_flips_all_matched_appends_one (e : Entity) (s : EngineState)
    (instance_id : String) (data : Dict)
    (hreq : ∀ k ∈ requiredKeys, k ∈ keys e.schema)
    (hsub : ∀ p ∈ data, p.1 ∈ keys e.schema)
    (hv : ValidData data)
    (hcur : ∃ r ∈ rowsOf s, matchesCurrent instance_id r = true) :
    ∃ newRow,
      (EntityBase.update e s instance_id data).1 = Except.ok (uuidStr s.nextId) ∧
      rowsOf (EntityBase.update e s instance_id data).2 =
        (rowsOf s).map (fun r =>
          if matchesCurrent instance_id r then setField r "IsCurrent" (Value.bool false)
          else r) ++ [newRow] ∧
      (rowsOf (EntityBase.update e s instance_id data).2).length =
        (rowsOf s).length + 1 ∧
      getField newRow "InstanceId" = Value.str instance_id ∧
      getField newRow "IsCurrent" = Value.bool true := by
  obtain ⟨h1, h2, _, _⟩ := update_spec e s instance_id data hcur
  refine ⟨newVersionRow e (uuidStr s.nextId) instance_id s.clock data, h1, h2, ?_, ?_, ?_⟩
  · rw [h2]
    simp
  · exact getField_newVersionRow_InstanceId e _ _ _ data hreq hv
  · exact getField_newVersionRow_IsCurrent e _ _ _ data hreq hv

/-- Witness for C3 at a concrete input: a table holding two records that are
both current for the same instance (the self-healing case) is updated without
an ambiguity error and both matched records are flipped. -/
theorem C3_update_flips_all_matched_appends_one_witness :
    (∃ r ∈ rowsOf (⟨some ⟨diaryEntity.schema,
        [[("Id", Value.str "a"), ("InstanceId", Value.str "x"),
          ("CreatedDate", Value.dt 0), ("IsCurrent", Value.bool true)],
         [("Id", Value.str "b"), ("InstanceId", Value.str "x"),
          ("CreatedDate", Value.dt 1), ("IsCurrent", Value.bool true)]]⟩, 7, 9⟩ :
        EngineState), matchesCurrent "x" r = true) ∧
    ∃ newRow,
      (EntityBase.update diaryEntity (⟨some ⟨diaryEntity.schema,
        [[("Id", Value.str "a"), ("InstanceId", Value.str "x"),
          ("CreatedDate", Value.dt 0), ("IsCurrent", Value.bool true)],
         [("Id", Value.str "b"), ("InstanceId", Value.str "x"),
          ("CreatedDate", Value.dt 1), ("IsCurrent", Value.bool true)]]⟩, 7, 9⟩ :
        EngineState) "x" [("Notes", Value.str "n")]).1 = Except.ok (uuidStr 7) ∧
      rowsOf (EntityBase.update diaryEntity (⟨some ⟨diaryEntity.schema,
        [[("Id", Value.str "a"), ("InstanceId", Value.str "x"),
          ("CreatedDate", Value.dt 0), ("IsCurrent", Value.bool true)],
         [("Id", Value.str "b"), ("InstanceId", Value.str "x"),
          ("CreatedDate", Value.dt 1), ("IsCurrent", Value.bool true)]]⟩, 7, 9⟩ :
        EngineState) "x" [("Notes", Value.str "n")]).2 =
        (rowsOf (⟨some ⟨diaryEntity.schema,
        [[("Id", Value.str "a"), ("InstanceId", Value.str "x"),
          ("CreatedDate", Value.dt 0), ("IsCurrent", Value.bool true)],
         [("Id", Value.str "b"), ("InstanceId", Value.str "x"),
          ("CreatedDate", Value.dt 1), ("IsCurrent", Value.bool true)]]⟩, 7, 9⟩ :
        EngineState)).map (fun r =>
          if matchesCurrent "x" r then setField r "IsCurrent" (Value.bool false)
          else r) ++ [newRow] ∧
      (rowsOf (EntityBase.update diaryEntity (⟨some ⟨diaryEntity.schema,
        [[("Id", Value.str "a"), ("InstanceId", Value.str "x"),
          ("CreatedDate", Value.dt 0), ("IsCurrent", Value.bool true)],
         [("Id", Value.str "b"), ("InstanceId", Value.str "x"),
          ("CreatedDate", Value.dt 1), ("IsCurrent", Value.bool true)]]⟩, 7, 9⟩ :
        EngineState) "x" [("Notes", Value.str "n")]).2).length =
        (rowsOf (⟨some ⟨diaryEntity.schema,
        [[("Id", Value.str "a"), ("InstanceId", Value.str "x"),
          ("CreatedDate", Value.dt 0), ("IsCurrent", Value.bool true)],
         [("Id", Value.str "b"), ("InstanceId", Value.str "x"),
          ("CreatedDate", Value.dt 1), ("IsCurrent", Value.bool true)]]⟩, 7, 9⟩ :
        EngineState)).length + 1 ∧
      getField newRow "InstanceId" = Value.str "x" ∧
      getField newRow "IsCurrent" = Value.bool true :=
  ⟨by decide, C3_update_flips_all_matched_appends_one diaryEntity _ "x"
    [("Notes", Value.str "n")] (by decide) (by decide) (by decide) (by decide)⟩

/-- C4: after `create(data)` with well-formed additional-field data returns
`iid` on any table whose rows do not already use the freshly drawn identifier,
`get_instance_history(iid)` yields exactly one record, with `Id == InstanceId
== iid`, `IsCurrent == true`, and every supplied field present with the
supplied value. -/
theorem C4_create_history_singleton (e : Entity) (s : EngineState) (data : Dict)
    (hreq : ∀ k ∈ requiredKeys, k ∈ keys e.schema)
    (hsub : ∀ p ∈ data, p.1 ∈ keys e.schema)
    (hv : ValidData data)
    (hnodd : (keys data).Nodup)
    (hfresh : ∀ r ∈ rowsOf s, getField r "InstanceId" ≠ Value.str (uuidStr s.nextId)) :
    (EntityBase.create e s data).1 = Except.ok (uuidStr s.nextId) ∧
    ∃ row,
      EntityBase.get_instance_history e (EntityBase.create e s data).2
        (uuidStr s.nextId) = [row] ∧
      getField row "Id" = Value.str (uuidStr s.nextId) ∧
      getField row "InstanceId" = Value.str (uuidStr s.nextId) ∧
      getField row "IsCurrent" = Value.bool true ∧
      ∀ p ∈ data, getField row p.1 = p.2 := by
  obtain ⟨h1, h2, _, _⟩ := create_spec e s data
  refine ⟨h1, newVersionRow e (uuidStr s.nextId) (uuidStr s.nextId) s.clock data,
    ?_, getField_newVersionRow_Id e _ _ _ data hreq hv,
    getField_newVersionRow_InstanceId e _ _ _ data hreq hv,
    getField_newVersionRow_IsCurrent e _ _ _ data hreq hv, ?_⟩
  · unfold EntityBase.get_instance_history
    rw [load_all_rows, h2, List.filter_append]
    have hfe : (rowsOf s).filter
        (fun r => getField r "InstanceId" == Value.str (uuidStr s.nextId)) = [] := by
      rw [List.filter_eq_nil_iff]
      intro r hr
      simpa using hfresh r hr
    have hf1 : ([newVersionRow e (uuidStr s.nextId) (uuidStr s.nextId) s.clock data]).filter
        (fun r => getField r "InstanceId" == Value.str (uuidStr s.nextId)) =
        [newVersionRow e (uuidStr s.nextId) (uuidStr s.nextId) s.clock data] := by
      simp [List.filter, getField_newVersionRow_InstanceId e _ _ _ data hreq hv]
    rw [hfe, hf1]
    rfl
  · intro p hp
    have hk : p.1 ∈ keys e.schema := hsub p hp
    unfold newVersionRow
    rw [getField_buildRow_mem _ _ _ hk,
      dictLookup_dictMerge_of_mem _ _ p.1 p.2 hnodd (by simpa using hp)]
    rfl

/-- Witness for C4 at a concrete input: creating a diary entry on the empty
table. -/
theorem C4_create_history_singleton_witness :
    ((∀ p ∈ [("UserId", Value.str "u1"), ("Food", Value.str "eggs")],
        p.1 ∈ keys diaryEntity.schema) ∧
     ValidData [("UserId", Value.str "u1"), ("Food", Value.str "eggs")]) ∧
    ((EntityBase.create diaryEntity emptyState
        [("UserId", Value.str "u1"), ("Food", Value.str "eggs")]).1 =
      Except.ok (uuidStr 0) ∧
    ∃ row,
      EntityBase.get_instance_history diaryEntity (EntityBase.create diaryEntity
        emptyState [("UserId", Value.str "u1"), ("Food", Value.str "eggs")]).2
        (uuidStr 0) = [row] ∧
      getField row "Id" = Value.str (uuidStr 0) ∧
      getField row "InstanceId" = Value.str (uuidStr 0) ∧
      getField row "IsCurrent" = Value.bool true ∧
      ∀ p ∈ [("UserId", Value.str "u1"), ("Food", Value.str "eggs")],
        getField row p.1 = p.2) :=
  ⟨⟨by decide, by decide⟩, C4_create_history_singleton diaryEntity emptyState
    [("UserId", Value.str "u1"), ("Food", Value.str "eggs")]
    (by decide) (by decide) (by decide) (by decide) (by decide)⟩

/-- C8: the record appended by a successful `update` is built purely from
`data` plus the engine-generated versioning fields: a declared additional
field omitted from `data` is null in the new version, whatever its value in
the superseded record (the state, hence that value, is arbitrary here). -/
theorem C8_omitted_fields_become_null (e : Entity) (s : EngineState)
    (instance_id : String) (data : Dict) (k : String)
    (hreq : ∀ k' ∈ requiredKeys, k' ∈ keys e.schema)
    (hsub : ∀ p ∈ data, p.1 ∈ keys e.schema)
    (hcur : ∃ r ∈ rowsOf s, matchesCurrent instance_id r = true)
    (hk : k ∈ keys e.schema) (hkreq : k ∉ requiredKeys) (hkd : k ∉ keys data) :
    ∃ newRow,
      rowsOf (EntityBase.update e s instance_id data).2 =
        (rowsOf s).map (fun r =>
          if matchesCurrent instance_id r then setField r "IsCurrent" (Value.bool false)
          else r) ++ [newRow] ∧
      getField newRow k = Value.null := by
  obtain ⟨_, h2, _, _⟩ := update_spec e s instance_id data hcur
  refine ⟨newVersionRow e (uuidStr s.nextId) instance_id s.clock data, h2, ?_⟩
  rw [getField_newVersionRow_base e _ _ _ data k hk hkd]
  have hnone : dictLookup (versioningBase (uuidStr s.nextId) instance_id s.clock) k =
      none := by
    apply dictLookup_eq_none
    intro v hv
    apply hkreq
    simp only [versioningBase, List.mem_cons, List.not_mem_nil, or_false,
      Prod.mk.injEq] at hv
    rcases hv with ⟨hk1, _⟩ | ⟨hk1, _⟩ | ⟨hk1, _⟩ | ⟨hk1, _⟩ <;> rw [hk1] <;> decide
  rw [hnone]
  rfl

/-- Witness for C8 at a concrete input: updating an instance whose stored
current version has `Notes = "old"` with data omitting `Notes` yields a new
version whose `Notes` is null. -/
theorem C8_omitted_fields_become_null_witness :
    ((∃ r ∈ rowsOf (⟨some ⟨diaryEntity.schema,
        [[("Id", Value.str "a"), ("InstanceId", Value.str "x"),
          ("CreatedDate", Value.dt 0), ("IsCurrent", Value.bool true),
          ("Notes", Value.str "old")]]⟩, 1, 1⟩ : EngineState),
        matchesCurrent "x" r = true) ∧
      "Notes" ∈ keys diaryEntity.schema ∧ "Notes" ∉ requiredKeys ∧
      "Notes" ∉ keys [("Food", Value.str "toast")]) ∧
    ∃ newRow,
      rowsOf (EntityBase.update diaryEntity (⟨some ⟨diaryEntity.schema,
        [[("Id", Value.str "a"), ("InstanceId", Value.str "x"),
          ("CreatedDate", Value.dt 0), ("IsCurrent", Value.bool true),
          ("Notes", Value.str "old")]]⟩, 1, 1⟩ : EngineState) "x"
        [("Food", Value.str "toast")]).2 =
        (rowsOf (⟨some ⟨diaryEntity.schema,
        [[("Id", Value.str "a"), ("InstanceId", Value.str "x"),
          ("CreatedDate", Value.dt 0), ("IsCurrent", Value.bool true),
          ("Notes", Value.str "old")]]⟩, 1, 1⟩ : EngineState)).map (fun r =>
          if matchesCurrent "x" r then setField r "IsCurrent" (Value.bool false)
          else r) ++ [newRow] ∧
      getField newRow "Notes" = Value.null :=
  ⟨⟨by decide, by decide, by decide, by decide⟩,
   C8_omitted_fields_become_null diaryEntity _ "x" [("Food", Value.str "toast")]
     "Notes" (by decide) (by decide) (by decide) (by decide) (by decide) (by decide)⟩

/-- C5: an instance created and then updated twice (single writer, well-formed
caller data, fresh identifier) has a history of exactly 3 records ordered
strictly ascending by `CreatedDate`; the first two are no longer current and
only the last is current. -/
theorem C5_two_updates_history (e : Entity) (s : EngineState)
    (data0 data1 data2 : Dict)
    (hreq : ∀ k ∈ requiredKeys, k ∈ keys e.schema)
    (h0s : ∀ p ∈ data0, p.1 ∈ keys e.schema) (h0v : ValidData data0)
    (h1s : ∀ p ∈ data1, p.1 ∈ keys e.schema) (h1v : ValidData data1)
    (h2s : ∀ p ∈ data2, p.1 ∈ keys e.schema) (h2v : ValidData data2)
    (hfresh : ∀ r ∈ rowsOf s, getField r "InstanceId" ≠ Value.str (uuidStr s.nextId)) :
    (EntityBase.create e s data0).1 = Except.ok (uuidStr s.nextId) ∧
    ∃ r1 r2 r3,
      EntityBase.get_instance_history e
        (EntityBase.update e
          (EntityBase.update e (EntityBase.create e s data0).2
            (uuidStr s.nextId) data1).2
          (uuidStr s.nextId) data2).2 (uuidStr s.nextId) = [r1, r2, r3] ∧
      dateKey r1 < dateKey r2 ∧ dateKey r2 < dateKey r3 ∧
      getField r1 "IsCurrent" = Value.bool false ∧
      getField r2 "IsCurrent" = Value.bool false ∧
      getField r3 "IsCurrent" = Value.bool true := by
  obtain ⟨hc1, hcrows, hcn, hcc⟩ := create_spec e s data0
  have hm1 : matchesCurrent (uuidStr s.nextId)
      (newVersionRow e (uuidStr s.nextId) (uuidStr s.nextId) s.clock data0) = true :=
    matchesCurrent_newVersionRow e _ _ _ data0 hreq h0v
  have hcur1 : ∃ r ∈ rowsOf (EntityBase.create e s data0).2,
      matchesCurrent (uuidStr s.nextId) r = true := by
    refine ⟨_, ?_, hm1⟩
    rw [hcrows]
    exact List.mem_append_right _ (List.mem_cons_self _ _)
  obtain ⟨hu1, hu1rows, hu1n, hu1c⟩ :=
    update_spec e (EntityBase.create e s data0).2 (uuidStr s.nextId) data1 hcur1
  rw [hcn, hcc] at hu1rows
  rw [hcn] at hu1n
  rw [hcc] at hu1c
  have hmap1 : (rowsOf (EntityBase.create e s data0).2).map
      (fun r => if matchesCurrent (uuidStr s.nextId) r
        then setField r "IsCurrent" (Value.bool false) else r) =
      rowsOf s ++ [setField (newVersionRow e (uuidStr s.nextId) (uuidStr s.nextId)
        s.clock data0) "IsCurrent" (Value.bool false)] := by
    rw [hcrows, List.map_append]
    congr 1
    · exact map_noop _ _ (fun r hr =>
        flip_of_not_matches _ r (matchesCurrent_eq_false_of_ne _ r (hfresh r hr)))
    · simp [hm1]
  rw [hmap1] at hu1rows
  have hm2 : matchesCurrent (uuidStr s.nextId)
      (newVersionRow e (uuidStr (s.nextId + 1)) (uuidStr s.nextId)
        (s.clock + 1) data1) = true :=
    matchesCurrent_newVersionRow e _ _ _ data1 hreq h1v
  have hcur2 : ∃ r ∈ rowsOf (EntityBase.update e (EntityBase.create e s data0).2
      (uuidStr s.nextId) data1).2, matchesCurrent (uuidStr s.nextId) r = true := by
    refine ⟨_, ?_, hm2⟩
    rw [hu1rows]
    exact List.mem_append_right _ (List.mem_cons_self _ _)
  obtain ⟨hu2, hu2rows, hu2n, hu2c⟩ :=
    update_spec e (EntityBase.update e (EntityBase.create e s data0).2
      (uuidStr s.nextId) data1).2 (uuidStr s.nextId) data2 hcur2
  rw [hu1n, hu1c] at hu2rows
  have hmap2 : (rowsOf (EntityBase.update e (EntityBase.create e s data0).2
      (uuidStr s.nextId) data1).2).map
      (fun r => if matchesCurrent (uuidStr s.nextId) r
        then setField r "IsCurrent" (Value.bool false) else r) =
      (rowsOf s ++ [setField (newVersionRow e (uuidStr s.nextId) (uuidStr s.nextId)
        s.clock data0) "IsCurrent" (Value.bool false)]) ++
      [setField (newVersionRow e (uuidStr (s.nextId + 1)) (uuidStr s.nextId)
        (s.clock + 1) data1) "IsCurrent" (Value.bool false)] := by
    rw [hu1rows, List.map_append, List.map_append]
    congr 1
    · congr 1
      · exact map_noop _ _ (fun r hr =>
          flip_of_not_matches _ r (matchesCurrent_eq_false_of_ne _ r (hfresh r hr)))
      · simp [flip_of_not_matches _ _ (matchesCurrent_flipped _ _ hm1)]
    · simp [hm2]
  rw [hmap2] at hu2rows
  have hv1inst : getField (setField (newVersionRow e (uuidStr s.nextId)
      (uuidStr s.nextId) s.clock data0) "IsCurrent" (Value.bool false))
      "InstanceId" = Value.str (uuidStr s.nextId) := by
    rw [getField_flipped_other _ "InstanceId" (by decide),
      getField_newVersionRow_InstanceId e _ _ _ data0 hreq h0v]
  have hv2inst : getField (setField (newVersionRow e (uuidStr (s.nextId + 1))
      (uuidStr s.nextId) (s.clock + 1) data1) "IsCurrent" (Value.bool false))
      "InstanceId" = Value.str (uuidStr s.nextId) := by
    rw [getField_flipped_other _ "InstanceId" (by decide),
      getField_newVersionRow_InstanceId e _ _ _ data1 hreq h1v]
  have hv3inst : getField (newVersionRow e (uuidStr (s.nextId + 1 + 1))
      (uuidStr s.nextId) (s.clock + 1 + 1) data2) "InstanceId" =
      Value.str (uuidStr s.nextId) :=
    getField_newVersionRow_InstanceId e _ _ _ data2 hreq h2v
  have dk1 : dateKey (setField (newVersionRow e (uuidStr s.nextId)
      (uuidStr s.nextId) s.clock data0) "IsCurrent" (Value.bool false)) = s.clock := by
    rw [dateKey_setField_IsCurrent, dateKey_newVersionRow e _ _ _ data0 hreq h0v]
  have dk2 : dateKey (setField (newVersionRow e (uuidStr (s.nextId + 1))
      (uuidStr s.nextId) (s.clock + 1) data1) "IsCurrent" (Value.bool false)) =
      s.clock + 1 := by
    rw [dateKey_setField_IsCurrent, dateKey_newVersionRow e _ _ _ data1 hreq h1v]
  have dk3 : dateKey (newVersionRow e (uuidStr (s.nextId + 1 + 1))
      (uuidStr s.nextId) (s.clock + 1 + 1) data2) = s.clock + 1 + 1 :=
    dateKey_newVersionRow e _ _ _ data2 hreq h2v
  refine ⟨hc1,
    setField (newVersionRow e (uuidStr s.nextId) (uuidStr s.nextId) s.clock data0)
      "IsCurrent" (Value.bool false),
    setField (newVersionRow e (uuidStr (s.nextId + 1)) (uuidStr s.nextId)
      (s.clock + 1) data1) "IsCurrent" (Value.bool false),
    newVersionRow e (uuidStr (s.nextId + 1 + 1)) (uuidStr s.nextId)
      (s.clock + 1 + 1) data2, ?_, ?_, ?_, ?_, ?_, ?_⟩
  · unfold EntityBase.get_instance_history
    rw [load_all_rows, hu2rows, List.filter_append, List.filter_append,
      List.filter_append]
    have hf0 : (rowsOf s).filter
        (fun r => getField r "InstanceId" == Value.str (uuidStr s.nextId)) = [] := by
      rw [List.filter_eq_nil_iff]
      intro r hr
      simpa using hfresh r hr
    rw [hf0]
    simp only [List.filter, hv1inst, hv2inst, hv3inst, beq_self_eq_true,
      List.nil_append]
    exact sortByDate_three _ _ _ (by rw [dk1, dk2]; omega) (by rw [dk2, dk3]; omega)
  · rw [dk1, dk2]
    omega
  · rw [dk2, dk3]
    omega
  · exact getField_flipped_IsCurrent _ _ hm1
  · exact getField_flipped_IsCurrent _ _ hm2
  · exact getField_newVersionRow_IsCurrent e _ _ _ data2 hreq h2v

/-- Witness for C5 at a concrete input: a diary entry created with
`Food = "eggs"` and updated with `"toast"` then `"rice"` on the fresh table. -/
theorem C5_two_updates_history_witness :
    ((∀ k ∈ requiredKeys, k ∈ keys diaryEntity.schema) ∧
     (∀ p ∈ [("Food", Value.str "eggs")], p.1 ∈ keys diaryEntity.schema) ∧
     ValidData [("Food", Value.str "eggs")] ∧
     (∀ p ∈ [("Food", Value.str "toast")], p.1 ∈ keys diaryEntity.schema) ∧
     ValidData [("Food", Value.str "toast")] ∧
     (∀ p ∈ [("Food", Value.str "rice")], p.1 ∈ keys diaryEntity.schema) ∧
     ValidData [("Food", Value.str "rice")] ∧
     (∀ r ∈ rowsOf emptyState,
        getField r "InstanceId" ≠ Value.str (uuidStr emptyState.nextId))) ∧
    ((EntityBase.create diaryEntity emptyState [("Food", Value.str "eggs")]).1 =
      Except.ok (uuidStr 0) ∧
    ∃ r1 r2 r3,
      EntityBase.get_instance_history diaryEntity
        (EntityBase.update diaryEntity
          (EntityBase.update diaryEntity
            (EntityBase.create diaryEntity emptyState
              [("Food", Value.str "eggs")]).2
            (uuidStr 0) [("Food", Value.str "toast")]).2
          (uuidStr 0) [("Food", Value.str "rice")]).2 (uuidStr 0) = [r1, r2, r3] ∧
      dateKey r1 < dateKey r2 ∧ dateKey r2 < dateKey r3 ∧
      getField r1 "IsCurrent" = Value.bool false ∧
      getField r2 "IsCurrent" = Value.bool false ∧
      getField r3 "IsCurrent" = Value.bool true) :=
  ⟨⟨by decide, by decide, by decide, by decide, by decide, by decide, by decide,
    by decide⟩,
   C5_two_updates_history diaryEntity emptyState [("Food", Value.str "eggs")]
     [("Food", Value.str "toast")] [("Food", Value.str "rice")]
     (by decide) (by decide) (by decide) (by decide) (by decide) (by decide)
     (by decide) (by decide)⟩

/-- C2: after any finite sequence of sequential (single-writer) `create`/
`update` calls with contract-honouring data on a table composed by
`EntityBase.init`, every `InstanceId` present has at most one current record;
consequently `load_current()` yields exactly one record per distinct
`InstanceId` — its length equals the number of distinct instances (P4). -/
theorem C2_single_current_per_instance (entity_name : String) (additional : Schema)
    (e : Entity) (ops : List Op)
    (hnod : (keys additional).Nodup)
    (hInit : EntityBase.init entity_name additional = Except.ok e)
    (hops : ∀ op ∈ ops, ValidOp op) :
    (∀ v, curCount v (rowsOf (run e ops)) ≤ 1) ∧
    ((EntityBase.load_current e (run e ops)).1).rows.length =
      (instanceIds (rowsOf (run e ops))).length ∧
    (∀ v ∈ instanceIds (rowsOf (run e ops)),
      curCount v (rowsOf (run e ops)) = 1) := by
  obtain ⟨hdisj, hschema, _⟩ := of_init_ok hnod hInit
  have hreq : ∀ k ∈ requiredKeys, k ∈ keys e.schema := by
    intro k hk
    rw [hschema]
    unfold keys
    rw [List.map_append]
    exact List.mem_append_left _ hk
  have hwf := WF_run e hreq ops hops
  refine ⟨curCount_le_one_of_WF _ hwf, ?_, ?_⟩
  · rw [load_current_rows]
    exact current_length_eq _ hwf
  · intro v hv'
    rw [instanceIds] at hv'
    rcases List.mem_map.1 (List.mem_dedup.1 hv') with ⟨r, hr, hinst⟩
    exact hwf.2 v ⟨r, hr, hinst⟩

/-- Witness for C2 at a concrete input: three sequential calls — two creates
and one update — across two distinct instances on the diary table. -/
theorem C2_single_current_per_instance_witness :
    ((keys diary_additional).Nodup ∧
     EntityBase.init "diary_entries" diary_additional = Except.ok diaryEntity ∧
     (∀ op ∈ [Op.create [("Food", Value.str "eggs")], Op.create [],
        Op.update (uuidStr 0) [("Food", Value.str "toast")]], ValidOp op)) ∧
    ((∀ v, curCount v (rowsOf (run diaryEntity
        [Op.create [("Food", Value.str "eggs")], Op.create [],
         Op.update (uuidStr 0) [("Food", Value.str "toast")]])) ≤ 1) ∧
     ((EntityBase.load_current diaryEntity (run diaryEntity
        [Op.create [("Food", Value.str "eggs")], Op.create [],
         Op.update (uuidStr 0) [("Food", Value.str "toast")]])).1).rows.length =
       (instanceIds (rowsOf (run diaryEntity
        [Op.create [("Food", Value.str "eggs")], Op.create [],
         Op.update (uuidStr 0) [("Food", Value.str "toast")]]))).length ∧
     (∀ v ∈ instanceIds (rowsOf (run diaryEntity
        [Op.create [("Food", Value.str "eggs")], Op.create [],
         Op.update (uuidStr 0) [("Food", Value.str "toast")]])),
       curCount v (rowsOf (run diaryEntity
        [Op.create [("Food", Value.str "eggs")], Op.create [],
         Op.update (uuidStr 0) [("Food", Value.str "toast")]])) = 1)) :=
  ⟨⟨by decide, init_ok "diary_entries" diary_additional (by decide) (by decide),
    by decide⟩,
   C2_single_current_per_instance "diary_entries" diary_additional diaryEntity
     [Op.create [("Food", Value.str "eggs")], Op.create [],
      Op.update (uuidStr 0) [("Food", Value.str "toast")]]
     (by decide) (init_ok "diary_entries" diary_additional (by decide) (by decide))
     (by decide)⟩

end FoodDiary
